import Mathlib

/-!
Shallow embedding of `src/main.py` (hold-to-exit-retrobat): the hold-detection
state machine inside `monitor_triggers_forever`, the configuration constants,
and the `on_hold_action` action invoker.  Timestamps (`time.monotonic()`) are
modelled as rationals.  The three per-button dictionaries of the monitor loop
(`hold_start_by_btn`, `next_allowed_trigger_by_btn`,
`last_hold_log_bucket_by_btn`) become, per button, a record of `Option`
values, where `none` models the button being absent from the dictionary.
-/

namespace HoldToExit

/-- `ButtonInput` (src/main.py:25-31): frozen dataclass identifying a physical
button by joystick id and button index. -/
structure ButtonInput where
  joystick_id : Nat
  button_index : Nat
deriving DecidableEq, Repr

/-- `PROCESS_NAMES_TO_KILL` (src/main.py:11-15). -/
def PROCESS_NAMES_TO_KILL : List String :=
  ["TeknoParrotUi.exe", "retroarch.exe", "fbneo64.exe"]

/-- `HOLD_SECONDS = 3.0` (src/main.py:17). -/
def HOLD_SECONDS : ℚ := 3

/-- `POLL_HZ = 60` (src/main.py:18); the loop sleeps `1.0 / POLL_HZ` between
ticks (src/main.py:239), which only paces the ticks and plays no role in the
state machine, whose inputs are the observed `now` timestamps. -/
def POLL_HZ : ℕ := 60

/-- `ACTION_COOLDOWN_SECONDS = 5.0` (src/main.py:19). -/
def ACTION_COOLDOWN_SECONDS : ℚ := 5

/-- The two timing parameters of the state machine.  The source fixes them to
the module constants `HOLD_SECONDS` and `ACTION_COOLDOWN_SECONDS`; the spec
(§6) treats them as startup configuration, so the machine is stated over an
arbitrary `Config` and `defaultConfig` recovers the source's constants. -/
structure Config where
  hold_seconds : ℚ
  cooldown_seconds : ℚ
deriving DecidableEq, Repr

/-- The source's configuration: hold threshold 3.0 s, cooldown 5.0 s. -/
def defaultConfig : Config := ⟨HOLD_SECONDS, ACTION_COOLDOWN_SECONDS⟩

/-- Per-button monitor state: the entries of the three dictionaries of
`monitor_triggers_forever` (src/main.py:194-200) for one button; `none` means
the button is not a key of that dictionary. -/
structure BtnState where
  hold_start : Option ℚ
  next_allowed : Option ℚ
  log_bucket : Option ℤ
deriving DecidableEq, Repr

/-- Python `int()` truncation toward zero, as used in `int(elapsed * 4)`
(src/main.py:220). -/
def pyInt (q : ℚ) : ℤ := q.num.tdiv q.den

/-- One per-button iteration of the monitor loop body (src/main.py:208-237):
given the tick's `now`, whether the button is in the pressed snapshot, and the
button's dictionary entries, it returns the updated entries and the `elapsed`
value of the emitted trigger, if any (a trigger being the
`on_hold_action` dispatch at src/main.py:229, announced with `elapsed` at
src/main.py:228).  If pressed: a missing `hold_start` is set to `now`
(src/main.py:212-213), `elapsed = now - hold_start` (src/main.py:217), the
log bucket becomes `int(elapsed * 4)` (src/main.py:220-222), and the trigger
fires iff `elapsed >= hold_seconds` and `now >= next_allowed` with absent
`next_allowed` read as `0.0` (src/main.py:226-227), in which case
`next_allowed` becomes `now + cooldown_seconds` (src/main.py:230).  If not
pressed and a `hold_start` exists, `hold_start` and the log bucket are popped
and `next_allowed` is left untouched (src/main.py:232-237). -/
def updateButton (c : Config) (now : ℚ) (is_pressed : Bool) (s : BtnState) :
    BtnState × Option ℚ :=
  if is_pressed then
    let hs := s.hold_start.getD now
    let elapsed := now - hs
    let bucket := pyInt (elapsed * 4)
    let next_allowed := s.next_allowed.getD 0
    if c.hold_seconds ≤ elapsed ∧ next_allowed ≤ now then
      (⟨some hs, some (now + c.cooldown_seconds), some bucket⟩, some elapsed)
    else
      (⟨some hs, s.next_allowed, some bucket⟩, none)
  else if s.hold_start.isSome then
    (⟨none, s.next_allowed, none⟩, none)
  else
    (s, none)

/-- One monitor tick: the `for btn in triggers` loop (src/main.py:208-237)
over the trigger set, collecting the emitted `(button, elapsed)` triggers in
iteration order.  The Python `triggers` is a set; it is modelled as a
duplicate-free list (iteration order is irrelevant, src spec §4.1). -/
def update (c : Config) (triggers : List ButtonInput) (now : ℚ)
    (pressed : List ButtonInput) (st : ButtonInput → BtnState) :
    (ButtonInput → BtnState) × List (ButtonInput × ℚ) :=
  match triggers with
  | [] => (st, [])
  | b :: rest =>
    let r := updateButton c now (decide (b ∈ pressed)) (st b)
    let next := update c rest now pressed (Function.update st b r.1)
    (next.1, r.2.toList.map (fun e => (b, e)) ++ next.2)

/-- The dictionaries start empty (src/main.py:194-200). -/
def initState : ButtonInput → BtnState := fun _ => ⟨none, none, none⟩

/-- The monitor loop of `monitor_triggers_forever` (src/main.py:202-239) run
on a finite list of ticks, each tick supplying `now = time.monotonic()`
(src/main.py:204) and the pressed snapshot returned by
`read_current_pressed_buttons` (src/main.py:205); emitted triggers are tagged
with the tick's `now`. -/
def monitorRun (c : Config) (triggers : List ButtonInput) :
    List (ℚ × List ButtonInput) → (ButtonInput → BtnState) →
      (ButtonInput → BtnState) × List (ℚ × ButtonInput × ℚ)
  | [], st => (st, [])
  | (now, pressed) :: rest, st =>
    let r := update c triggers now pressed st
    let next := monitorRun c triggers rest r.1
    (next.1, r.2.map (fun e => (now, e.1, e.2)) ++ next.2)

/-- The monitor loop body restricted to a single trigger button: each tick
supplies `now` and whether that button is pressed.  `monitorRun_eventsFor`
below proves this is exactly the view of `monitorRun` at one button. -/
def runButton (c : Config) : List (ℚ × Bool) → BtnState → BtnState × List (ℚ × ℚ)
  | [], s => (s, [])
  | (now, p) :: rest, s =>
    let r := updateButton c now p s
    let next := runButton c rest r.1
    (next.1, r.2.toList.map (fun e => (now, e)) ++ next.2)

/-- The triggers of one tick that belong to button `b`. -/
def tickEventsFor (b : ButtonInput) (evs : List (ButtonInput × ℚ)) : List ℚ :=
  evs.filterMap fun e => if e.1 = b then some e.2 else none

/-- The `(time, elapsed)` triggers of a run that belong to button `b`. -/
def eventsFor (b : ButtonInput) (evs : List (ℚ × ButtonInput × ℚ)) :
    List (ℚ × ℚ) :=
  evs.filterMap fun e => if e.2.1 = b then some (e.1, e.2.2) else none

/-- `on_hold_action` (src/main.py:82-89).  Its announcement line
(src/main.py:83) reports the pair `(trigger_btn, HOLD_SECONDS)` — the
configured constant, not a measured duration (the function receives only the
button).  It then calls `kill_process_by_name` for each name of
`PROCESS_NAMES_TO_KILL`, in order, inside `try/except`, so a raised exception
is caught and logged (src/main.py:84-88).  The OS interaction of
`kill_process_by_name` is abstracted by the oracle `kill`
(`Except.error` = the call raised; `Except.ok r` = it returned `r`).
Result: the announced pair and, per name in order, whether the attempt
completed without an exception. -/
def on_hold_action (kill : String → Except String Bool)
    (trigger_btn : ButtonInput) :
    (ButtonInput × ℚ) × List (String × Bool) :=
  ((trigger_btn, HOLD_SECONDS),
    PROCESS_NAMES_TO_KILL.map fun name =>
      (name, match kill name with
        | Except.ok _ => true
        | Except.error _ => false))

/-- The synchronous dispatch of the monitor loop: `on_hold_action(btn)`
(src/main.py:229) for each emitted trigger, in order; only the button is
passed. -/
def actionInvocations (kill : String → Except String Bool)
    (evs : List (ℚ × ButtonInput × ℚ)) :
    List ((ButtonInput × ℚ) × List (String × Bool)) :=
  evs.map fun e => on_hold_action kill e.2.1

/-! ### Case characterizations of `updateButton` -/

lemma updateButton_not_pressed_events (c : Config) (now : ℚ) (s : BtnState) :
    (updateButton c now false s).2 = none := by
  unfold updateButton
  split
  · simp_all
  · split <;> rfl

lemma updateButton_not_pressed_next (c : Config) (now : ℚ) (s : BtnState) :
    (updateButton c now false s).1.next_allowed = s.next_allowed := by
  unfold updateButton
  split
  · simp_all
  · split <;> rfl

lemma updateButton_release (c : Config) (now : ℚ) (s : BtnState)
    (h : s.hold_start.isSome) :
    updateButton c now false s = (⟨none, s.next_allowed, none⟩, none) := by
  unfold updateButton
  simp [h]

lemma updateButton_pressed_fresh (c : Config) (now : ℚ) (s : BtnState)
    (h : s.hold_start = none) :
    updateButton c now true s = updateButton c now true ⟨some now, s.next_allowed, s.log_bucket⟩ := by
  unfold updateButton
  simp [h]

lemma updateButton_pressed_fire_eq (c : Config) (now : ℚ) (s : BtnState)
    (hc : c.hold_seconds ≤ now - s.hold_start.getD now ∧ s.next_allowed.getD 0 ≤ now) :
    updateButton c now true s =
      (⟨some (s.hold_start.getD now), some (now + c.cooldown_seconds),
          some (pyInt ((now - s.hold_start.getD now) * 4))⟩,
        some (now - s.hold_start.getD now)) := by
  unfold updateButton
  simp [hc]

lemma updateButton_pressed_skip_eq (c : Config) (now : ℚ) (s : BtnState)
    (hc : ¬ (c.hold_seconds ≤ now - s.hold_start.getD now ∧ s.next_allowed.getD 0 ≤ now)) :
    updateButton c now true s =
      (⟨some (s.hold_start.getD now), s.next_allowed,
          some (pyInt ((now - s.hold_start.getD now) * 4))⟩, none) := by
  unfold updateButton
  simp [hc]

lemma updateButton_fire (c : Config) (now d : ℚ) (p : Bool) (s : BtnState)
    (h : (updateButton c now p s).2 = some d) :
    p = true ∧ d = now - s.hold_start.getD now ∧ c.hold_seconds ≤ d ∧
      s.next_allowed.getD 0 ≤ now ∧
      (updateButton c now p s).1 =
        ⟨some (s.hold_start.getD now), some (now + c.cooldown_seconds),
          some (pyInt (d * 4))⟩ := by
  cases p with
  | false =>
    rw [updateButton_not_pressed_events] at h
    cases h
  | true =>
    by_cases hc : c.hold_seconds ≤ now - s.hold_start.getD now ∧ s.next_allowed.getD 0 ≤ now
    · have he := updateButton_pressed_fire_eq c now s hc
      rw [he] at h
      obtain rfl : now - s.hold_start.getD now = d := by simpa using h
      exact ⟨rfl, rfl, hc.1, hc.2, by rw [he]⟩
    · rw [updateButton_pressed_skip_eq c now s hc] at h
      cases h

lemma updateButton_no_fire_next (c : Config) (now : ℚ) (p : Bool) (s : BtnState)
    (h : (updateButton c now p s).2 = none) :
    (updateButton c now p s).1.next_allowed = s.next_allowed := by
  cases p with
  | false => exact updateButton_not_pressed_next c now s
  | true =>
    by_cases hc : c.hold_seconds ≤ now - s.hold_start.getD now ∧ s.next_allowed.getD 0 ≤ now
    · rw [updateButton_pressed_fire_eq c now s hc] at h
      cases h
    · rw [updateButton_pressed_skip_eq c now s hc]

lemma updateButton_pressed_held (c : Config) (now t₀ : ℚ) (s : BtnState)
    (h : s.hold_start = some t₀)
    (hno : ¬ (c.hold_seconds ≤ now - t₀ ∧ s.next_allowed.getD 0 ≤ now)) :
    updateButton c now true s =
      (⟨some t₀, s.next_allowed, some (pyInt ((now - t₀) * 4))⟩, none) := by
  unfold updateButton
  simp [h, hno]

lemma updateButton_pressed_held_fire (c : Config) (now t₀ : ℚ) (s : BtnState)
    (h : s.hold_start = some t₀)
    (hyes : c.hold_seconds ≤ now - t₀ ∧ s.next_allowed.getD 0 ≤ now) :
    updateButton c now true s =
      (⟨some t₀, some (now + c.cooldown_seconds), some (pyInt ((now - t₀) * 4))⟩,
        some (now - t₀)) := by
  unfold updateButton
  simp [h, hyes]

/-! ### The per-tick loop treats each trigger button independently -/

lemma update_mem_triggers (c : Config) (triggers : List ButtonInput) (now : ℚ)
    (pressed : List ButtonInput) :
    ∀ st, ∀ e ∈ (update c triggers now pressed st).2, e.1 ∈ triggers := by
  induction triggers with
  | nil => intro st e he; simp [update] at he
  | cons a rest ih =>
    intro st e he
    simp only [update, List.mem_append, List.mem_map, Option.mem_toList] at he
    rcases he with ⟨d, _, rfl⟩ | h
    · exact List.mem_cons_self a rest
    · exact List.mem_cons_of_mem a (ih _ e h)

lemma update_state_of_not_mem (c : Config) (triggers : List ButtonInput)
    (now : ℚ) (pressed : List ButtonInput) (b : ButtonInput)
    (hb : b ∉ triggers) :
    ∀ st, (update c triggers now pressed st).1 b = st b := by
  induction triggers with
  | nil => intro st; rfl
  | cons a rest ih =>
    intro st
    simp only [List.mem_cons, not_or] at hb
    simp only [update]
    rw [ih hb.2, Function.update_noteq hb.1]

lemma tickEventsFor_append (b : ButtonInput) (xs ys : List (ButtonInput × ℚ)) :
    tickEventsFor b (xs ++ ys) = tickEventsFor b xs ++ tickEventsFor b ys :=
  List.filterMap_append ..

lemma tickEventsFor_own (b : ButtonInput) (o : Option ℚ) :
    tickEventsFor b (o.toList.map fun e => (b, e)) = o.toList := by
  cases o <;> simp [tickEventsFor]

lemma tickEventsFor_other (a b : ButtonInput) (o : Option ℚ) (hne : a ≠ b) :
    tickEventsFor b (o.toList.map fun e => (a, e)) = [] := by
  cases o <;> simp [tickEventsFor, hne]

lemma update_events_of_not_mem (c : Config) (triggers : List ButtonInput)
    (now : ℚ) (pressed : List ButtonInput) (b : ButtonInput)
    (hb : b ∉ triggers) (st : ButtonInput → BtnState) :
    tickEventsFor b (update c triggers now pressed st).2 = [] := by
  rw [tickEventsFor, List.filterMap_eq_nil_iff]
  intro e he
  have hmem := update_mem_triggers c triggers now pressed st e he
  have hne : ¬ e.1 = b := fun h => hb (h ▸ hmem)
  simp [hne]

lemma update_state_of_mem (c : Config) (triggers : List ButtonInput) (now : ℚ)
    (pressed : List ButtonInput) (b : ButtonInput)
    (ht : triggers.Nodup) (hb : b ∈ triggers) :
    ∀ st, (update c triggers now pressed st).1 b
      = (updateButton c now (decide (b ∈ pressed)) (st b)).1 := by
  induction triggers with
  | nil => cases hb
  | cons a rest ih =>
    intro st
    rcases List.mem_cons.mp hb with rfl | hmem
    · have ha : b ∉ rest := (List.nodup_cons.mp ht).1
      simp only [update]
      rw [update_state_of_not_mem c rest now pressed b ha, Function.update_same]
    · have hne : b ≠ a := by
        rintro rfl
        exact (List.nodup_cons.mp ht).1 hmem
      simp only [update]
      rw [ih (List.nodup_cons.mp ht).2 hmem, Function.update_noteq hne]

lemma update_events_of_mem (c : Config) (triggers : List ButtonInput) (now : ℚ)
    (pressed : List ButtonInput) (b : ButtonInput)
    (ht : triggers.Nodup) (hb : b ∈ triggers) :
    ∀ st, tickEventsFor b (update c triggers now pressed st).2
      = (updateButton c now (decide (b ∈ pressed)) (st b)).2.toList := by
  induction triggers with
  | nil => cases hb
  | cons a rest ih =>
    intro st
    rcases List.mem_cons.mp hb with rfl | hmem
    · have ha : b ∉ rest := (List.nodup_cons.mp ht).1
      simp only [update, tickEventsFor_append]
      rw [tickEventsFor_own, update_events_of_not_mem c rest now pressed b ha,
        List.append_nil]
    · have hne : b ≠ a := by
        rintro rfl
        exact (List.nodup_cons.mp ht).1 hmem
      simp only [update, tickEventsFor_append]
      rw [tickEventsFor_other a b _ hne.symm, List.nil_append,
        ih (List.nodup_cons.mp ht).2 hmem, Function.update_noteq hne]

lemma eventsFor_append (b : ButtonInput) (xs ys : List (ℚ × ButtonInput × ℚ)) :
    eventsFor b (xs ++ ys) = eventsFor b xs ++ eventsFor b ys :=
  List.filterMap_append ..

lemma eventsFor_tag (b : ButtonInput) (now : ℚ) (evs : List (ButtonInput × ℚ)) :
    eventsFor b (evs.map fun e => (now, e.1, e.2))
      = (tickEventsFor b evs).map fun d => (now, d) := by
  induction evs with
  | nil => rfl
  | cons x rest ih =>
    by_cases hx : x.1 = b <;>
      simp [eventsFor, tickEventsFor, List.filterMap_cons, hx] <;>
      simpa [eventsFor, tickEventsFor] using ih

lemma monitorRun_state_of_mem (c : Config) (triggers : List ButtonInput)
    (b : ButtonInput) (ht : triggers.Nodup) (hb : b ∈ triggers) :
    ∀ (ticks : List (ℚ × List ButtonInput)) (st : ButtonInput → BtnState),
      (monitorRun c triggers ticks st).1 b
        = (runButton c (ticks.map fun p => (p.1, decide (b ∈ p.2))) (st b)).1 := by
  intro ticks
  induction ticks with
  | nil => intro st; rfl
  | cons tk rest ih =>
    intro st
    obtain ⟨now, pressed⟩ := tk
    simp only [monitorRun, List.map_cons, runButton]
    rw [ih, update_state_of_mem c triggers now pressed b ht hb]

lemma monitorRun_events_of_mem (c : Config) (triggers : List ButtonInput)
    (b : ButtonInput) (ht : triggers.Nodup) (hb : b ∈ triggers) :
    ∀ (ticks : List (ℚ × List ButtonInput)) (st : ButtonInput → BtnState),
      eventsFor b (monitorRun c triggers ticks st).2
        = (runButton c (ticks.map fun p => (p.1, decide (b ∈ p.2))) (st b)).2 := by
  intro ticks
  induction ticks with
  | nil => intro st; rfl
  | cons tk rest ih =>
    intro st
    obtain ⟨now, pressed⟩ := tk
    simp only [monitorRun, List.map_cons, runButton]
    rw [eventsFor_append, eventsFor_tag,
      update_events_of_mem c triggers now pressed b ht hb, ih,
      update_state_of_mem c triggers now pressed b ht hb]

/-! ### Temporal facts about a single button's run -/

lemma runButton_cooldown_suppressed (c : Config) (T : ℚ) :
    ∀ (ts : List ℚ) (s : BtnState), s.next_allowed = some T →
      (∀ t ∈ ts, t < T) →
      (runButton c (ts.map fun t => (t, true)) s).2 = [] := by
  intro ts
  induction ts with
  | nil => intro s _ _; rfl
  | cons t rest ih =>
    intro s hna hlt
    have hgd : s.next_allowed.getD 0 = T := by rw [hna]; rfl
    have hno : ¬ (c.hold_seconds ≤ t - s.hold_start.getD t ∧
        s.next_allowed.getD 0 ≤ t) := by
      rintro ⟨-, h2⟩
      rw [hgd] at h2
      exact absurd h2 (not_le.mpr (hlt t (List.mem_cons_self t rest)))
    simp only [List.map_cons, runButton, updateButton_pressed_skip_eq c t s hno,
      Option.toList_none, List.map_nil, List.nil_append]
    exact ih _ hna fun x hx => hlt x (List.mem_cons_of_mem t hx)

lemma runButton_events_lb (c : Config) (hcd : 0 ≤ c.cooldown_seconds) :
    ∀ (ticks : List (ℚ × Bool)) (s : BtnState) (e : ℚ × ℚ),
      e ∈ (runButton c ticks s).2 → s.next_allowed.getD 0 ≤ e.1 := by
  intro ticks
  induction ticks with
  | nil => intro s e he; cases he
  | cons tk rest ih =>
    intro s e he
    obtain ⟨now, p⟩ := tk
    simp only [runButton, List.mem_append] at he
    rcases hr : (updateButton c now p s).2 with _ | d
    · rw [hr] at he
      simp only [Option.toList_none, List.map_nil, List.not_mem_nil,
        false_or] at he
      have h1 := ih _ e he
      rw [updateButton_no_fire_next c now p s hr] at h1
      exact h1
    · rw [hr] at he
      simp only [Option.toList_some, List.map_cons, List.map_nil,
        List.mem_singleton] at he
      obtain ⟨-, -, -, hle, hst⟩ := updateButton_fire c now d p s hr
      rcases he with rfl | he
      · exact hle
      · have h1 := ih _ e he
        rw [hst] at h1
        simp only [Option.getD_some] at h1
        calc s.next_allowed.getD 0 ≤ now := hle
          _ ≤ now + c.cooldown_seconds := le_add_of_nonneg_right hcd
          _ ≤ e.1 := h1

lemma runButton_events_pairwise (c : Config) (hcd : 0 ≤ c.cooldown_seconds) :
    ∀ (ticks : List (ℚ × Bool)) (s : BtnState),
      ((runButton c ticks s).2).Pairwise
        (fun e1 e2 => e1.1 + c.cooldown_seconds ≤ e2.1) := by
  intro ticks
  induction ticks with
  | nil => intro s; exact List.Pairwise.nil
  | cons tk rest ih =>
    intro s
    obtain ⟨now, p⟩ := tk
    simp only [runButton]
    rcases hr : (updateButton c now p s).2 with _ | d
    · simpa using ih _
    · simp only [Option.toList_some, List.map_cons, List.map_nil,
        List.singleton_append]
      refine List.Pairwise.cons ?_ (ih _)
      intro e he
      have hst := (updateButton_fire c now d p s hr).2.2.2.2
      have h1 := runButton_events_lb c hcd rest _ e he
      rw [hst] at h1
      simpa using h1

lemma runButton_held_head (c : Config) (t₀ A : ℚ) :
    ∀ (ts : List ℚ) (s : BtnState), s.hold_start = some t₀ →
      s.next_allowed.getD 0 = A →
      (runButton c (ts.map fun t => (t, true)) s).2.head? =
        ((ts.find? fun t => decide (c.hold_seconds ≤ t - t₀ ∧ A ≤ t)).map
          fun t => (t, t - t₀)) := by
  intro ts
  induction ts with
  | nil => intro s _ _; rfl
  | cons t rest ih =>
    intro s hhs hA
    have hgd : s.hold_start.getD t = t₀ := by rw [hhs]; rfl
    by_cases hc : c.hold_seconds ≤ t - t₀ ∧ A ≤ t
    · have hc' : c.hold_seconds ≤ t - s.hold_start.getD t ∧
          s.next_allowed.getD 0 ≤ t := by rw [hgd, hA]; exact hc
      have hfind : ((t :: rest).find? fun x => decide (c.hold_seconds ≤ x - t₀ ∧ A ≤ x))
          = some t := List.find?_cons_of_pos rest (by simpa using hc)
      simp only [List.map_cons, runButton, updateButton_pressed_fire_eq c t s hc']
      rw [hfind]
      simp [hgd]
    · have hc' : ¬ (c.hold_seconds ≤ t - s.hold_start.getD t ∧
          s.next_allowed.getD 0 ≤ t) := by rw [hgd, hA]; exact hc
      have hfind : ((t :: rest).find? fun x => decide (c.hold_seconds ≤ x - t₀ ∧ A ≤ x))
          = rest.find? fun x => decide (c.hold_seconds ≤ x - t₀ ∧ A ≤ x) :=
        List.find?_cons_of_neg rest (by simpa using hc)
      simp only [List.map_cons, runButton, updateButton_pressed_skip_eq c t s hc',
        Option.toList_none, List.map_nil, List.nil_append]
      rw [hfind]
      exact ih _ (by simp [hgd]) hA

lemma runButton_fresh_head (c : Config) (t₀ A : ℚ) (ts : List ℚ) (s : BtnState)
    (hhs : s.hold_start = none) (hA : s.next_allowed.getD 0 = A) :
    (runButton c ((t₀ :: ts).map fun t => (t, true)) s).2.head? =
      (((t₀ :: ts).find? fun t => decide (c.hold_seconds ≤ t - t₀ ∧ A ≤ t)).map
        fun t => (t, t - t₀)) := by
  have hgd : s.hold_start.getD t₀ = t₀ := by rw [hhs]; rfl
  by_cases hc : c.hold_seconds ≤ t₀ - t₀ ∧ A ≤ t₀
  · have hc' : c.hold_seconds ≤ t₀ - s.hold_start.getD t₀ ∧
        s.next_allowed.getD 0 ≤ t₀ := by rw [hgd, hA]; exact hc
    have hfind : ((t₀ :: ts).find? fun x => decide (c.hold_seconds ≤ x - t₀ ∧ A ≤ x))
        = some t₀ := List.find?_cons_of_pos ts (by simpa using hc)
    simp only [List.map_cons, runButton, updateButton_pressed_fire_eq c t₀ s hc']
    rw [hfind]
    simp [hgd]
  · have hc' : ¬ (c.hold_seconds ≤ t₀ - s.hold_start.getD t₀ ∧
        s.next_allowed.getD 0 ≤ t₀) := by rw [hgd, hA]; exact hc
    have hfind : ((t₀ :: ts).find? fun x => decide (c.hold_seconds ≤ x - t₀ ∧ A ≤ x))
        = ts.find? fun x => decide (c.hold_seconds ≤ x - t₀ ∧ A ≤ x) :=
      List.find?_cons_of_neg ts (by simpa using hc)
    simp only [List.map_cons, runButton, updateButton_pressed_skip_eq c t₀ s hc',
      Option.toList_none, List.map_nil, List.nil_append]
    rw [hfind]
    exact runButton_held_head c t₀ A ts _ (by simp [hgd]) hA

lemma list_find?_congr {α : Type} (p q : α → Bool) :
    ∀ (l : List α), (∀ x ∈ l, p x = q x) → l.find? p = l.find? q := by
  intro l
  induction l with
  | nil => intro _; rfl
  | cons a rest ih =>
    intro h
    cases hpa : p a with
    | true =>
      rw [List.find?_cons_of_pos _ hpa,
        List.find?_cons_of_pos _ (by rw [← h a (List.mem_cons_self a rest)]; exact hpa)]
    | false =>
      rw [List.find?_cons_of_neg _ (by simp [hpa]),
        List.find?_cons_of_neg _
          (by rw [← h a (List.mem_cons_self a rest)]; simp [hpa])]
      exact ih fun x hx => h x (List.mem_cons_of_mem a hx)

/-! ### Claims -/

/-- Claim C1 counterexample: with the source configuration (threshold 3 s,
cooldown 5 s) and trigger button Joy0:Btn1, the button present in every
pressed snapshot at times 0, 3, 9 — one unbroken hold, never released —
produces TWO triggers: at t = 3 (elapsed 3) and again at t = 9 (elapsed 9,
the cooldown having expired at t = 8 while the button was still held).  The
code has no per-hold latch, only the cooldown gate (src/main.py:226-230), so
a second TriggerEvent fires without any release. -/
theorem claimC1_counterexample :
    (monitorRun defaultConfig [⟨0, 1⟩]
        [(0, [⟨0, 1⟩]), (3, [⟨0, 1⟩]), (9, [⟨0, 1⟩])] initState).2
      = [(3, ⟨0, 1⟩, 3), (9, ⟨0, 1⟩, 9)] := by
  norm_num [monitorRun, update, updateButton, initState, defaultConfig,
    HOLD_SECONDS, ACTION_COOLDOWN_SECONDS, Function.update]

/-- Claim C1 (amended): a trigger sets `nextAllowedTriggerAt` to
`now + cooldownSeconds`, and while every tick time is still below that bound
a continuously held button emits no further trigger — so at most one trigger
per cooldown window during a hold; once `now` reaches the bound the held
button fires again without a release (`claimC1_counterexample`). -/
theorem claimC1_amended (c : Config) :
    (∀ (now d : ℚ) (p : Bool) (s : BtnState),
      (updateButton c now p s).2 = some d →
        (updateButton c now p s).1.next_allowed
          = some (now + c.cooldown_seconds)) ∧
    (∀ (T : ℚ) (ts : List ℚ) (s : BtnState), s.next_allowed = some T →
      (∀ t ∈ ts, t < T) →
      (runButton c (ts.map fun t => (t, true)) s).2 = []) := by
  constructor
  · intro now d p s h
    rw [(updateButton_fire c now d p s h).2.2.2.2]
  · exact fun T ts s h1 h2 => runButton_cooldown_suppressed c T ts s h1 h2

/-- Concrete instance of `claimC1_amended`: a trigger at t = 3 arms the
cooldown until 8, and a button held at t = 6, 7 (both below 8) emits
nothing. -/
theorem claimC1_witness :
    (updateButton defaultConfig 3 true ⟨some 0, none, some 11⟩).1.next_allowed
        = some (3 + defaultConfig.cooldown_seconds) ∧
    (runButton defaultConfig ([(6 : ℚ), 7].map fun t => (t, true))
        ⟨some 0, some 8, some 23⟩).2 = [] :=
  ⟨(claimC1_amended defaultConfig).1 3 3 true ⟨some 0, none, some 11⟩
      (by norm_num [updateButton, defaultConfig, HOLD_SECONDS]),
   (claimC1_amended defaultConfig).2 8 [6, 7] ⟨some 0, some 8, some 23⟩ rfl
      (by norm_num)⟩

/-- Claim C2 counterexample: in the run pressing Joy0:Btn1 at t = 0 and
t = 7/2, the trigger fires with measured elapsed 7/2, but `on_hold_action`
announces the pair `(button, HOLD_SECONDS)` = `(button, 3)` — the constant,
not the measured 7/2 — and receives only the button (src/main.py:82-83,229). -/
theorem claimC2_counterexample :
    (monitorRun defaultConfig [⟨0, 1⟩]
        [(0, [⟨0, 1⟩]), (7/2, [⟨0, 1⟩])] initState).2
      = [(7/2, ⟨0, 1⟩, 7/2)] ∧
    (on_hold_action (fun _ => Except.ok false) ⟨0, 1⟩).1
      = (⟨0, 1⟩, HOLD_SECONDS) ∧
    (7/2 : ℚ) ≠ HOLD_SECONDS := by
  refine ⟨?_, rfl, by norm_num [HOLD_SECONDS]⟩
  norm_num [monitorRun, update, updateButton, initState, defaultConfig,
    HOLD_SECONDS, ACTION_COOLDOWN_SECONDS, Function.update]

/-- Claim C2 (amended): every emitted trigger carries
`elapsed = now - pressSince` as measured at the tick of emission (with
`pressSince = now` for a fresh press), but the action callback is invoked
with only the button and announces the configured `HOLD_SECONDS`, not the
measured duration. -/
theorem claimC2_amended (c : Config) (now d : ℚ) (p : Bool) (s : BtnState)
    (h : (updateButton c now p s).2 = some d) :
    d = now - s.hold_start.getD now ∧
    ∀ (kill : String → Except String Bool) (b : ButtonInput),
      (on_hold_action kill b).1 = (b, HOLD_SECONDS) :=
  ⟨(updateButton_fire c now d p s h).2.1, fun _ _ => rfl⟩

/-- Concrete instance of `claimC2_amended` at `now = 7/2` with press start
0. -/
theorem claimC2_witness :
    (7/2 : ℚ) = 7/2 - (BtnState.mk (some 0) none none).hold_start.getD (7/2) ∧
    ∀ (kill : String → Except String Bool) (b : ButtonInput),
      (on_hold_action kill b).1 = (b, HOLD_SECONDS) :=
  claimC2_amended defaultConfig (7/2) (7/2) true ⟨some 0, none, none⟩
    (by norm_num [updateButton, defaultConfig, HOLD_SECONDS])

/-- Claim C3 counterexample: from the initial state (no cooldown in effect),
Joy0:Btn1 pressed at times 0, 4, 10 is one continuous hold; the code emits a
trigger at t = 4 (the first tick with elapsed ≥ 3) but then a SECOND one at
t = 10 (cooldown expired at 9 during the hold), so "exactly once" fails for
a hold extending past the cooldown. -/
theorem claimC3_counterexample :
    (monitorRun defaultConfig [⟨0, 1⟩]
        [(0, [⟨0, 1⟩]), (4, [⟨0, 1⟩]), (10, [⟨0, 1⟩])] initState).2
      = [(4, ⟨0, 1⟩, 4), (10, ⟨0, 1⟩, 10)] := by
  norm_num [monitorRun, update, updateButton, initState, defaultConfig,
    HOLD_SECONDS, ACTION_COOLDOWN_SECONDS, Function.update]

/-- Claim C3 (amended): for a tracked button pressed on every tick of a run
started from the initial state (no prior cooldown, nonnegative timestamps),
the FIRST trigger is emitted exactly on the first tick whose elapsed time
`t - t₀` reaches `hold_seconds`, boundary inclusive, and on no earlier tick —
its value is that tick's elapsed time; no trigger at all when no tick
qualifies.  (Uniqueness over the whole run holds only until the cooldown
expires; see `claimC3_counterexample`.) -/
theorem claimC3_amended (c : Config) (triggers : List ButtonInput)
    (b : ButtonInput) (ticks : List (ℚ × List ButtonInput)) (t₀ : ℚ)
    (ts : List ℚ) (ht : triggers.Nodup) (hb : b ∈ triggers)
    (htimes : ticks.map Prod.fst = t₀ :: ts)
    (hheld : ∀ p ∈ ticks, b ∈ p.2)
    (h0 : ∀ t ∈ ticks.map Prod.fst, (0:ℚ) ≤ t) :
    (eventsFor b (monitorRun c triggers ticks initState).2).head? =
      (((t₀ :: ts).find? fun t => decide (c.hold_seconds ≤ t - t₀)).map
        fun t => (t, t - t₀)) := by
  rw [monitorRun_events_of_mem c triggers b ht hb ticks initState]
  have hmap : (ticks.map fun p => (p.1, decide (b ∈ p.2)))
      = (t₀ :: ts).map fun t => (t, true) := by
    rw [← htimes, List.map_map]
    exact List.map_congr_left fun p hp => by simp [hheld p hp]
  rw [hmap, runButton_fresh_head c t₀ 0 ts (initState b) rfl rfl]
  congr 1
  apply list_find?_congr
  intro x hx
  have hx0 : (0:ℚ) ≤ x := h0 x (by rw [htimes]; exact hx)
  simp [hx0]

/-- Concrete instance of `claimC3_amended`: ticks at 0, 1, 3 all pressed;
the first (and here only) trigger is at t = 3, the first tick with
elapsed ≥ 3. -/
theorem claimC3_witness :
    (eventsFor ⟨0, 1⟩ (monitorRun defaultConfig [⟨0, 1⟩]
        [(0, [⟨0, 1⟩]), (1, [⟨0, 1⟩]), (3, [⟨0, 1⟩])] initState).2).head? =
      ((((0:ℚ) :: [1, 3]).find?
          fun t => decide (defaultConfig.hold_seconds ≤ t - 0)).map
        fun t => (t, t - 0)) :=
  claimC3_amended defaultConfig [⟨0, 1⟩] ⟨0, 1⟩
    [(0, [⟨0, 1⟩]), (1, [⟨0, 1⟩]), (3, [⟨0, 1⟩])] 0 [1, 3]
    (by simp) (by simp) rfl (by simp) (by norm_num)

/-- Claim C4: after a trigger (cooldown armed until `T`), a release, and a
re-press at `t₀ < T`, the hold timer restarts at the new press
(`pressSince = t₀`), and the first trigger of the new hold comes exactly at
the first tick satisfying BOTH `elapsed ≥ hold_seconds` and `now ≥ T` — no
earlier, even after crossing the threshold. -/
theorem claimC4 (c : Config) (T t₀ : ℚ) (ts : List ℚ) (s : BtnState)
    (hrel : s.hold_start = none) (hcool : s.next_allowed = some T)
    (hearly : t₀ < T) :
    (updateButton c t₀ true s).1.hold_start = some t₀ ∧
    (runButton c ((t₀ :: ts).map fun t => (t, true)) s).2.head? =
      (((t₀ :: ts).find? fun t => decide (c.hold_seconds ≤ t - t₀ ∧ T ≤ t)).map
        fun t => (t, t - t₀)) := by
  have hA : s.next_allowed.getD 0 = T := by rw [hcool]; rfl
  have hgd : s.hold_start.getD t₀ = t₀ := by rw [hrel]; rfl
  constructor
  · by_cases hc : c.hold_seconds ≤ t₀ - s.hold_start.getD t₀ ∧
        s.next_allowed.getD 0 ≤ t₀
    · rw [updateButton_pressed_fire_eq c t₀ s hc]
      simp [hgd]
    · rw [updateButton_pressed_skip_eq c t₀ s hc]
      simp [hgd]
  · exact runButton_fresh_head c t₀ T ts s hrel hA

/-- Concrete instance of `claimC4`: cooldown armed until 5, re-press at 2,
further pressed ticks at 4 and 6; threshold crossed at 5 but the trigger
waits for t = 6, the first tick with both elapsed ≥ 3 and now ≥ 5. -/
theorem claimC4_witness :
    (updateButton defaultConfig 2 true ⟨none, some 5, none⟩).1.hold_start
        = some 2 ∧
    (runButton defaultConfig (((2:ℚ) :: [4, 6]).map fun t => (t, true))
        ⟨none, some 5, none⟩).2.head? =
      ((((2:ℚ) :: [4, 6]).find?
          fun t => decide (defaultConfig.hold_seconds ≤ t - 2 ∧ 5 ≤ t)).map
        fun t => (t, t - 2)) :=
  claimC4 defaultConfig 5 2 [4, 6] ⟨none, some 5, none⟩ rfl rfl (by norm_num)

/-- Claim C5: on a tick whose snapshot does not contain a tracked button that
has a recorded `pressSince`, that same tick clears `pressSince`, leaves
`nextAllowedTriggerAt` untouched, and emits no trigger for that button. -/
theorem claimC5 (c : Config) (triggers : List ButtonInput) (now : ℚ)
    (pressed : List ButtonInput) (st : ButtonInput → BtnState)
    (b : ButtonInput) (ht : triggers.Nodup) (hb : b ∈ triggers)
    (hnp : b ∉ pressed) (hps : (st b).hold_start.isSome) :
    ((update c triggers now pressed st).1 b).hold_start = none ∧
    ((update c triggers now pressed st).1 b).next_allowed
        = (st b).next_allowed ∧
    tickEventsFor b (update c triggers now pressed st).2 = [] := by
  have hdec : decide (b ∈ pressed) = false := decide_eq_false hnp
  have hrel := updateButton_release c now (st b) hps
  refine ⟨?_, ?_, ?_⟩
  · rw [update_state_of_mem c triggers now pressed b ht hb st, hdec, hrel]
  · rw [update_state_of_mem c triggers now pressed b ht hb st, hdec, hrel]
  · rw [update_events_of_mem c triggers now pressed b ht hb st, hdec, hrel]
    rfl

/-- Concrete instance of `claimC5`: a release tick for Joy0:Btn1 holding
since t = 1 with cooldown armed until 9. -/
theorem claimC5_witness :
    ((update defaultConfig [⟨0, 1⟩] 2 []
        (fun _ => ⟨some 1, some 9, some 4⟩)).1 ⟨0, 1⟩).hold_start = none ∧
    ((update defaultConfig [⟨0, 1⟩] 2 []
        (fun _ => ⟨some 1, some 9, some 4⟩)).1 ⟨0, 1⟩).next_allowed
      = (BtnState.mk (some 1) (some 9) (some 4)).next_allowed ∧
    tickEventsFor ⟨0, 1⟩ (update defaultConfig [⟨0, 1⟩] 2 []
        (fun _ => ⟨some 1, some 9, some 4⟩)).2 = [] :=
  claimC5 defaultConfig [⟨0, 1⟩] 2 [] (fun _ => ⟨some 1, some 9, some 4⟩)
    ⟨0, 1⟩ (by simp) (by simp) (by simp) rfl

lemma monitorRun_no_triggers (c : Config) :
    ∀ (ticks : List (ℚ × List ButtonInput)) (st : ButtonInput → BtnState),
      (monitorRun c [] ticks st).2 = [] := by
  intro ticks
  induction ticks with
  | nil => intro st; rfl
  | cons tk rest ih =>
    intro st
    obtain ⟨now, pressed⟩ := tk
    simp only [monitorRun, update, List.map_nil, List.nil_append]
    exact ih st

/-- Claim C6: with an empty trigger set, any run of any length and any
timestamps emits zero triggers and never invokes the action callback. -/
theorem claimC6 (c : Config) (ticks : List (ℚ × List ButtonInput))
    (st : ButtonInput → BtnState) (kill : String → Except String Bool) :
    (monitorRun c [] ticks st).2 = [] ∧
    actionInvocations kill (monitorRun c [] ticks st).2 = [] := by
  have h := monitorRun_no_triggers c ticks st
  exact ⟨h, by rw [h]; rfl⟩

/-- Claim C7: with `hold_seconds ≤ 0`, a tracked button with no cooldown in
effect triggers on the very first tick it is observed pressed: `pressSince`
is set to that tick's `now` and the emitted elapsed value is zero. -/
theorem claimC7 (c : Config) (triggers pressed : List ButtonInput) (now : ℚ)
    (st : ButtonInput → BtnState) (b : ButtonInput)
    (ht : triggers.Nodup) (hb : b ∈ triggers) (hpress : b ∈ pressed)
    (hfresh : (st b).hold_start = none)
    (hnocd : (st b).next_allowed.getD 0 ≤ now) (hH : c.hold_seconds ≤ 0) :
    ((update c triggers now pressed st).1 b).hold_start = some now ∧
    tickEventsFor b (update c triggers now pressed st).2 = [0] := by
  have hdec : decide (b ∈ pressed) = true := decide_eq_true hpress
  have hgd : (st b).hold_start.getD now = now := by rw [hfresh]; rfl
  have hc : c.hold_seconds ≤ now - (st b).hold_start.getD now ∧
      (st b).next_allowed.getD 0 ≤ now := by
    rw [hgd]
    exact ⟨by simpa using hH, hnocd⟩
  have hfire := updateButton_pressed_fire_eq c now (st b) hc
  constructor
  · rw [update_state_of_mem c triggers now pressed b ht hb st, hdec, hfire]
    simp [hgd]
  · rw [update_events_of_mem c triggers now pressed b ht hb st, hdec, hfire]
    simp [hgd]

/-- Concrete instance of `claimC7`: threshold 0, button freshly pressed at
t = 4 with cooldown armed only until 2. -/
theorem claimC7_witness :
    ((update ⟨0, 5⟩ [⟨0, 1⟩] 4 [⟨0, 1⟩]
        (fun _ => ⟨none, some 2, none⟩)).1 ⟨0, 1⟩).hold_start = some 4 ∧
    tickEventsFor ⟨0, 1⟩ (update ⟨0, 5⟩ [⟨0, 1⟩] 4 [⟨0, 1⟩]
        (fun _ => ⟨none, some 2, none⟩)).2 = [0] :=
  claimC7 ⟨0, 5⟩ [⟨0, 1⟩] [⟨0, 1⟩] 4 (fun _ => ⟨none, some 2, none⟩) ⟨0, 1⟩
    (by simp) (by simp) (by simp) rfl (by norm_num) (by norm_num)

/-- Claim C8 (noninterference): a tracked button's final state and emitted
triggers depend only on the per-tick timestamps and on that button's own
membership in each tick's snapshot — two runs whose ticks agree on those
(but may differ arbitrarily on other buttons) give it identical state and
identical triggers. -/
theorem claimC8 (c : Config) (triggers : List ButtonInput) (b : ButtonInput)
    (ticks1 ticks2 : List (ℚ × List ButtonInput))
    (ht : triggers.Nodup) (hb : b ∈ triggers)
    (hsame : (ticks1.map fun p => (p.1, decide (b ∈ p.2)))
      = ticks2.map fun p => (p.1, decide (b ∈ p.2))) :
    (monitorRun c triggers ticks1 initState).1 b
        = (monitorRun c triggers ticks2 initState).1 b ∧
    eventsFor b (monitorRun c triggers ticks1 initState).2
        = eventsFor b (monitorRun c triggers ticks2 initState).2 := by
  constructor
  · rw [monitorRun_state_of_mem c triggers b ht hb ticks1 initState,
      monitorRun_state_of_mem c triggers b ht hb ticks2 initState, hsame]
  · rw [monitorRun_events_of_mem c triggers b ht hb ticks1 initState,
      monitorRun_events_of_mem c triggers b ht hb ticks2 initState, hsame]

/-- Concrete instance of `claimC8`: Joy0:Btn1 held at t = 0, 1 in both runs
while Joy0:Btn2's pattern differs between them. -/
theorem claimC8_witness :
    (monitorRun defaultConfig [⟨0, 1⟩, ⟨0, 2⟩]
        [(0, [⟨0, 1⟩, ⟨0, 2⟩]), (1, [⟨0, 1⟩])] initState).1 ⟨0, 1⟩
      = (monitorRun defaultConfig [⟨0, 1⟩, ⟨0, 2⟩]
        [(0, [⟨0, 1⟩]), (1, [⟨0, 1⟩, ⟨0, 2⟩])] initState).1 ⟨0, 1⟩ ∧
    eventsFor ⟨0, 1⟩ (monitorRun defaultConfig [⟨0, 1⟩, ⟨0, 2⟩]
        [(0, [⟨0, 1⟩, ⟨0, 2⟩]), (1, [⟨0, 1⟩])] initState).2
      = eventsFor ⟨0, 1⟩ (monitorRun defaultConfig [⟨0, 1⟩, ⟨0, 2⟩]
        [(0, [⟨0, 1⟩]), (1, [⟨0, 1⟩, ⟨0, 2⟩])] initState).2 :=
  claimC8 defaultConfig [⟨0, 1⟩, ⟨0, 2⟩] ⟨0, 1⟩
    [(0, [⟨0, 1⟩, ⟨0, 2⟩]), (1, [⟨0, 1⟩])]
    [(0, [⟨0, 1⟩]), (1, [⟨0, 1⟩, ⟨0, 2⟩])]
    (by simp) (by simp) (by simp)

/-- Claim C9: the action invoker attempts every configured process name, in
order, for every oracle behaviour of the kill primitive — a raised exception
in one attempt (an `Except.error` result of the oracle) neither skips the
remaining names nor escapes `on_hold_action`, which is total. -/
theorem claimC9 (kill : String → Except String Bool) (b : ButtonInput) :
    ((on_hold_action kill b).2).map Prod.fst = PROCESS_NAMES_TO_KILL := by
  simp [on_hold_action, List.map_map, Function.comp_def]

/-- Claim C10: for a run with monotonically non-decreasing timestamps and
nonnegative cooldown, any two triggers of the same tracked button are
separated by at least `cooldown_seconds` (each trigger re-arms
`nextAllowedTriggerAt` to `now + cooldown_seconds`, src/main.py:230). -/
theorem claimC10 (c : Config) (triggers : List ButtonInput) (b : ButtonInput)
    (ticks : List (ℚ × List ButtonInput))
    (ht : triggers.Nodup) (hb : b ∈ triggers)
    (hcd : 0 ≤ c.cooldown_seconds)
    (hmono : (ticks.map Prod.fst).Chain' (· ≤ ·)) :
    (eventsFor b (monitorRun c triggers ticks initState).2).Pairwise
      (fun e1 e2 => e1.1 + c.cooldown_seconds ≤ e2.1) := by
  rw [monitorRun_events_of_mem c triggers b ht hb ticks initState]
  exact runButton_events_pairwise c hcd _ _

/-- Concrete instance of `claimC10`: ticks at 0, 4, 11 produce triggers at
t = 4 and t = 11, separated by 7 ≥ cooldown 5. -/
theorem claimC10_witness :
    (eventsFor ⟨0, 1⟩ (monitorRun defaultConfig [⟨0, 1⟩]
        [(0, [⟨0, 1⟩]), (4, [⟨0, 1⟩]), (11, [⟨0, 1⟩])] initState).2).Pairwise
      (fun e1 e2 => e1.1 + defaultConfig.cooldown_seconds ≤ e2.1) :=
  claimC10 defaultConfig [⟨0, 1⟩] ⟨0, 1⟩
    [(0, [⟨0, 1⟩]), (4, [⟨0, 1⟩]), (11, [⟨0, 1⟩])]
    (by simp) (by simp) (by norm_num [defaultConfig, ACTION_COOLDOWN_SECONDS])
    (by norm_num)

end HoldToExit
